import Mathlib

/-!
Verification of the Mowzio agent core against its specification.

This file shallowly embeds the agent core of the repository
(`src/llm/memory/*`, `src/llm/client/llm_client.py`, `src/llm/agent.py`,
`src/llm/tools/*`) into Lean and proves or refutes the testable
properties stated in the specification.

Modelling conventions:
- Python lists/deques become Lean `List`s (front of the list = left end).
- The Redis backing list of the persisted memory variant is modelled as a
  `List Message`.  The source calls `message.to_json()` / `Message.from_json`
  for (de)serialization; those two methods are not present in the source
  tree, so per the spec ("conversion to/from the transport format") they are
  modelled as a round-tripping codec, i.e. the stored list holds the
  messages themselves.
- Exceptions become `Except`; the generation backend is modelled as an
  oracle value describing the outcome of the single HTTP call a `chat`
  invocation performs.
-/

namespace Mowzio

/-- Message roles (the `Literal["system", "user", "assistant"]` of
`src/llm/memory/memory.py`). -/
inductive Role where
  | system
  | user
  | assistant
deriving DecidableEq, Repr

/-- `Message` dataclass from `src/llm/memory/memory.py`. -/
structure Message where
  content : String
  role : Role
deriving DecidableEq, Repr

/-! ## In-memory window buffer (`src/llm/memory/in_memory_window_buffer_memory.py`) -/

/-- State of `InMemoryWindowBufferMemory`: the window size, the deque of
non-system messages (front = oldest) and the optional system slot. -/
structure InMemoryWindowBufferMemory where
  window_size : Nat
  messages : List Message
  system_message : Option Message
deriving DecidableEq, Repr

namespace InMemoryWindowBufferMemory

/-- `InMemoryWindowBufferMemory.__init__`. -/
def init (window_size : Nat) : InMemoryWindowBufferMemory :=
  { window_size := window_size, messages := [], system_message := none }

/-- The `while len(self._messages) > self._window_size: self._messages.popleft()`
loop of `add_message` (structural form: when the deque is longer than the
window, pop the left end and loop). -/
def popLeftWhileOver (w : Nat) : List Message → List Message
  | [] => []
  | a :: t => if (a :: t).length > w then popLeftWhileOver w t else a :: t

/-- `InMemoryWindowBufferMemory.add_message`. -/
def add_message (st : InMemoryWindowBufferMemory) (message : Message) :
    InMemoryWindowBufferMemory :=
  if message.role = Role.system then
    { st with system_message := some message }
  else
    { st with messages := popLeftWhileOver st.window_size (st.messages ++ [message]) }

/-- `InMemoryWindowBufferMemory.get_messages`. -/
def get_messages (st : InMemoryWindowBufferMemory) : List Message :=
  (match st.system_message with
   | some s => [s]
   | none => []) ++ st.messages

/-- `InMemoryWindowBufferMemory.clear_messages`. -/
def clear_messages (st : InMemoryWindowBufferMemory)
    (system_prompt : Option Message := none) : InMemoryWindowBufferMemory :=
  { st with
    messages := []
    system_message :=
      match system_prompt with
      | some p => if p.role = Role.system then some p else none
      | none => none }

/-- `InMemoryWindowBufferMemory.remove_last_message` (`deque.pop` removes the
right end, i.e. the newest message). -/
def remove_last_message (st : InMemoryWindowBufferMemory) :
    InMemoryWindowBufferMemory :=
  { st with messages := st.messages.dropLast }

/-- Run a sequence of `add_message` calls on a fresh memory. -/
def runAdds (w : Nat) (msgs : List Message) : InMemoryWindowBufferMemory :=
  msgs.foldl add_message (init w)

end InMemoryWindowBufferMemory

/-! ## Persisted window buffer (`src/llm/memory/persisted_window_buffer_memory.py`)

The Redis list at `self._messages_key` is the whole mutable state; `rpush`
appends on the right, `lrange(key, 0, -1)` reads the whole list, `delete`
empties it. -/

/-- Python's stable `list.sort(key=...)` with a `Nat`-valued key, modelled as
stable insertion sort (any stable sort by the same key computes the same
output). -/
def sortInsert (key : Message → Nat) (m : Message) : List Message → List Message
  | [] => [m]
  | x :: xs => if key m ≤ key x then m :: x :: xs else x :: sortInsert key m xs

/-- See `sortInsert`. -/
def pySortByKey (key : Message → Nat) : List Message → List Message
  | [] => []
  | x :: xs => sortInsert key x (pySortByKey key xs)

/-- Python's `all_messages.index(m)`: index of the first occurrence. -/
def pyIndex (l : List Message) (m : Message) : Nat :=
  l.findIdx (fun x => decide (x = m))

/-- Python's `lst[-w:]` slice: for `w = 0` this is `lst[0:]`, i.e. the whole
list, otherwise the last `w` elements. -/
def pyLastSlice (w : Nat) (l : List Message) : List Message :=
  if w = 0 then l else l.drop (l.length - w)

/-- The list rebuilt by the pruning branch of
`PersistedWindowBufferMemory.add_message`: system messages plus the
`[-w:]` slice of the non-system messages, stable-sorted by index in the
full list. -/
def pruneStore (w : Nat) (all_messages : List Message) : List Message :=
  pySortByKey (pyIndex all_messages)
    (all_messages.filter (fun x => decide (x.role = Role.system)) ++
      pyLastSlice w (all_messages.filter (fun x => decide (x.role ≠ Role.system))))

/-- State of `PersistedWindowBufferMemory`: window size plus the backing
Redis list. -/
structure PersistedWindowBufferMemory where
  window_size : Nat
  store : List Message
deriving DecidableEq, Repr

namespace PersistedWindowBufferMemory

/-- `PersistedWindowBufferMemory.__init__` (fresh backing list). -/
def init (window_size : Nat) : PersistedWindowBufferMemory :=
  { window_size := window_size, store := [] }

/-- `PersistedWindowBufferMemory.get_messages`. -/
def get_messages (st : PersistedWindowBufferMemory) : List Message :=
  st.store

/-- `PersistedWindowBufferMemory.add_message`: rpush the message, then if the
non-system count exceeds the window size, rebuild the list from the system
messages plus the `[-window_size:]` slice of the non-system messages, sorted
back by `all_messages.index`. -/
def add_message (st : PersistedWindowBufferMemory) (message : Message) :
    PersistedWindowBufferMemory :=
  let all_messages := st.store ++ [message]
  let system_messages := all_messages.filter (fun m => decide (m.role = Role.system))
  let non_system_count := all_messages.length - system_messages.length
  if non_system_count > st.window_size then
    let non_system_messages :=
      all_messages.filter (fun m => decide (m.role ≠ Role.system))
    let preserved_messages :=
      system_messages ++ pyLastSlice st.window_size non_system_messages
    { st with store := pySortByKey (pyIndex all_messages) preserved_messages }
  else
    { st with store := all_messages }

/-- `PersistedWindowBufferMemory.clear_messages`.  (Python truthiness: a
`Message` object is always truthy, so any provided prompt is pushed back
regardless of its role.) -/
def clear_messages (st : PersistedWindowBufferMemory)
    (system_prompt : Option Message := none) : PersistedWindowBufferMemory :=
  { st with
    store :=
      match system_prompt with
      | some p => [p]
      | none => [] }

/-- `PersistedWindowBufferMemory.remove_last_message`. -/
def remove_last_message (st : PersistedWindowBufferMemory) :
    PersistedWindowBufferMemory :=
  match h : st.store with
  | [] => st
  | _ :: _ =>
    if (st.store.getLast (by simp [h])).role = Role.system then st
    else { st with store := st.store.dropLast }

/-- Run a sequence of `add_message` calls on a fresh memory. -/
def runAdds (w : Nat) (msgs : List Message) : PersistedWindowBufferMemory :=
  msgs.foldl add_message (init w)

end PersistedWindowBufferMemory

/-! ## Generation client (`src/llm/client/llm_client.py`)

`LlmClient.chat` performs exactly one backend call.  The outcome of that
call is modelled as an oracle value: either the raised exception
(`APIError` / `RateLimitError` / `APIConnectionError` / anything else — the
handlers behave identically: roll back and re-raise), or the response
object, whose relevant shape is `response.choices[0].message.content` with
each level possibly missing (`None` / empty `choices`). -/

/-- Shape of a successful `client.chat.completions.create` result as far as
`chat` inspects it: `none` models a falsy `response`; the list is
`response.choices`; each choice carries an optional `message` with an
optional `content`. -/
def ApiResponse : Type := Option (List (Option (Option String)))

/-- Outcome of the single backend call inside `chat`: `Except.error ()` is a
raised exception, `Except.ok r` a returned response object. -/
def BackendOutcome : Type := Except Unit ApiResponse

namespace LlmClient

open InMemoryWindowBufferMemory in
/-- `LlmClient.chat`, instantiated at the default
`InMemoryWindowBufferMemory` memory: adds the user message, performs the
backend call (whose outcome is the `outcome` oracle argument), then either
adds the assistant message (empty on a missing-content response) and
returns its content, or on exception removes the last message and
re-raises. -/
def chat (mem : InMemoryWindowBufferMemory) (user_message : String)
    (outcome : BackendOutcome) :
    Except Unit String × InMemoryWindowBufferMemory :=
  let mem1 := mem.add_message { content := user_message, role := Role.user }
  match outcome with
  | Except.error _ => (Except.error (), mem1.remove_last_message)
  | Except.ok response =>
    match response with
    | some (some (some c) :: _) =>
      (Except.ok c, mem1.add_message { content := c, role := Role.assistant })
    | some (some none :: _) =>
      (Except.ok "", mem1.add_message { content := "", role := Role.assistant })
    | some (none :: _) =>
      (Except.ok "", mem1.add_message { content := "", role := Role.assistant })
    | some [] =>
      (Except.ok "", mem1.add_message { content := "", role := Role.assistant })
    | none =>
      (Except.ok "", mem1.add_message { content := "", role := Role.assistant })

/-- The "success but missing/empty content" response shapes of claim C9:
falsy response, empty `choices`, missing `message`, `content` that is
`None`, or empty-string content. -/
def missingOrEmptyContent : ApiResponse → Prop
  | none => True
  | some [] => True
  | some (none :: _) => True
  | some (some none :: _) => True
  | some (some (some c) :: _) => c = ""

end LlmClient

/-! ## JSON (`json.loads` as used by `Agent.parse_tool_call`)

JSON values; numbers keep their source lexeme (none of the verified
properties depends on numeric semantics, and this avoids floating point). -/

/-- JSON values produced by `json.loads`.  Objects are Python dicts:
key-unique, insertion-ordered, later duplicate keys overwrite the value in
place. -/
inductive Jval where
  | jnull
  | jbool (b : Bool)
  | jnum (lexeme : String)
  | jstr (s : String)
  | jarr (elements : List Jval)
  | jobj (entries : List (String × Jval))

/-- `d[k] = v` on a Python dict: overwrite in place if the key exists,
else append. -/
def pyDictInsert {α : Type} : List (String × α) → String → α → List (String × α)
  | [], k, v => [(k, v)]
  | (k0, v0) :: rest, k, v =>
    if k0 = k then (k0, v) :: rest else (k0, v0) :: pyDictInsert rest k v

/-- `d.get(k)` on a Python dict (keys are unique, so first match). -/
def pyDictGet {α : Type} : List (String × α) → String → Option α
  | [], _ => none
  | (k0, v0) :: rest, k => if k0 = k then some v0 else pyDictGet rest k

/-- JSON insignificant whitespace. -/
def jsonWs (c : Char) : Bool :=
  c = ' ' || c = '\t' || c = '\n' || c = '\r'

/-- Skip JSON whitespace. -/
def skipWs (l : List Char) : List Char := l.dropWhile jsonWs

/-- Hexadecimal digit value. -/
def hexVal (c : Char) : Option Nat :=
  if '0' ≤ c ∧ c ≤ '9' then some (c.toNat - '0'.toNat)
  else if 'a' ≤ c ∧ c ≤ 'f' then some (c.toNat - 'a'.toNat + 10)
  else if 'A' ≤ c ∧ c ≤ 'F' then some (c.toNat - 'A'.toNat + 10)
  else none

/-- Strip a literal prefix from a character list. -/
def stripPrefixChars : List Char → List Char → Option (List Char)
  | [], l => some l
  | _ :: _, [] => none
  | p :: ps, c :: cs => if p = c then stripPrefixChars ps cs else none

/-- Scan a JSON string body (the opening quote already consumed); returns the
decoded content and the remainder after the closing quote.  Raw control
characters are rejected (Python's default `strict=True`). -/
def scanJsonString : Nat → List Char → Option (String × List Char)
  | 0, _ => none
  | _ + 1, [] => none
  | fuel + 1, c :: rest =>
    if c = '"' then some ("", rest)
    else if c = '\\' then
      match rest with
      | [] => none
      | e :: rest2 =>
        let cont : Char → List Char → Option (String × List Char) := fun ch r =>
          (scanJsonString fuel r).map (fun p => (String.mk (ch :: p.1.data), p.2))
        if e = '"' then cont '"' rest2
        else if e = '\\' then cont '\\' rest2
        else if e = '/' then cont '/' rest2
        else if e = 'b' then cont (Char.ofNat 8) rest2
        else if e = 'f' then cont (Char.ofNat 12) rest2
        else if e = 'n' then cont '\n' rest2
        else if e = 'r' then cont '\r' rest2
        else if e = 't' then cont '\t' rest2
        else if e = 'u' then
          match rest2 with
          | h1 :: h2 :: h3 :: h4 :: rest3 =>
            match hexVal h1, hexVal h2, hexVal h3, hexVal h4 with
            | some a, some b, some c2, some d =>
              cont (Char.ofNat (a * 4096 + b * 256 + c2 * 16 + d)) rest3
            | _, _, _, _ => none
          | _ => none
        else none
    else if c.toNat < 32 then none
    else (scanJsonString fuel rest).map (fun p => (String.mk (c :: p.1.data), p.2))

/-- Scan a JSON number lexeme `-?(0|[1-9][0-9]*)(.[0-9]+)?([eE][+-]?[0-9]+)?`. -/
def scanJsonNumber (l : List Char) : Option (List Char × List Char) :=
  let (sign, l1) : List Char × List Char :=
    match l with
    | '-' :: r => (['-'], r)
    | _ => ([], l)
  match l1 with
  | c :: r =>
    if c = '0' ∨ ¬ c.isDigit then
      if c = '0' then some (sign ++ ['0'], r) else none
    else
      let ds := l1.takeWhile Char.isDigit
      some (sign ++ ds, l1.drop ds.length)
  | [] => none

/-- Extend a scanned integer part with the optional fraction part. -/
def scanJsonFrac (intPart : List Char) (rest : List Char) :
    List Char × List Char :=
  match rest with
  | '.' :: r =>
    let ds := r.takeWhile Char.isDigit
    if ds = [] then (intPart, rest)
    else (intPart ++ '.' :: ds, r.drop ds.length)
  | _ => (intPart, rest)

/-- Extend a scanned number with the optional exponent part. -/
def scanJsonExp (numPart : List Char) (rest : List Char) :
    List Char × List Char :=
  match rest with
  | e :: r =>
    if e = 'e' ∨ e = 'E' then
      let (sgn, r1) : List Char × List Char :=
        match r with
        | '+' :: r2 => (['+'], r2)
        | '-' :: r2 => (['-'], r2)
        | _ => ([], r)
      let ds := r1.takeWhile Char.isDigit
      if ds = [] then (numPart, rest)
      else (numPart ++ e :: (sgn ++ ds), r1.drop ds.length)
    else (numPart, rest)
  | [] => (numPart, rest)

mutual

/-- Parse one JSON value starting at the head of the input (leading
whitespace already skipped by the caller). -/
def parseJsonValue : Nat → List Char → Option (Jval × List Char)
  | 0, _ => none
  | _ + 1, [] => none
  | fuel + 1, l@(c :: rest) =>
    if c = '"' then
      (scanJsonString (rest.length + 1) rest).map (fun p => (Jval.jstr p.1, p.2))
    else if c = '{' then
      match skipWs rest with
      | '}' :: r => some (Jval.jobj [], r)
      | l2 => parseJsonObjBody fuel l2 []
    else if c = '[' then
      match skipWs rest with
      | ']' :: r => some (Jval.jarr [], r)
      | l2 => parseJsonArrBody fuel l2 []
    else
      ((stripPrefixChars "true".data l).map (fun r => (Jval.jbool true, r))) <|>
      ((stripPrefixChars "false".data l).map (fun r => (Jval.jbool false, r))) <|>
      ((stripPrefixChars "null".data l).map (fun r => (Jval.jnull, r))) <|>
      ((stripPrefixChars "NaN".data l).map (fun r => (Jval.jnum "NaN", r))) <|>
      ((stripPrefixChars "Infinity".data l).map (fun r => (Jval.jnum "Infinity", r))) <|>
      ((stripPrefixChars "-Infinity".data l).map (fun r => (Jval.jnum "-Infinity", r))) <|>
      ((scanJsonNumber l).map (fun p =>
        let q := scanJsonFrac p.1 p.2
        let q2 := scanJsonExp q.1 q.2
        (Jval.jnum (String.mk q2.1), q2.2)))

/-- Parse the members of a JSON object (input at a key, whitespace skipped);
`acc` holds the entries parsed so far with dict semantics. -/
def parseJsonObjBody : Nat → List Char → List (String × Jval) →
    Option (Jval × List Char)
  | 0, _, _ => none
  | fuel + 1, l, acc =>
    match l with
    | '"' :: rest =>
      match scanJsonString (rest.length + 1) rest with
      | none => none
      | some (k, r1) =>
        match skipWs r1 with
        | ':' :: r2 =>
          match parseJsonValue fuel (skipWs r2) with
          | none => none
          | some (v, r3) =>
            let acc2 := pyDictInsert acc k v
            match skipWs r3 with
            | ',' :: r4 => parseJsonObjBody fuel (skipWs r4) acc2
            | '}' :: r4 => some (Jval.jobj acc2, r4)
            | _ => none
        | _ => none
    | _ => none

/-- Parse the elements of a JSON array (input at a value, whitespace
skipped). -/
def parseJsonArrBody : Nat → List Char → List Jval → Option (Jval × List Char)
  | 0, _, _ => none
  | fuel + 1, l, acc =>
    match parseJsonValue fuel l with
    | none => none
    | some (v, r1) =>
      let acc2 := acc ++ [v]
      match skipWs r1 with
      | ',' :: r2 => parseJsonArrBody fuel (skipWs r2) acc2
      | ']' :: r2 => some (Jval.jarr acc2, r2)
      | _ => none

end

/-- `json.loads`: exactly one JSON value, optionally surrounded by
whitespace. -/
def json_loads (s : String) : Option Jval :=
  let l := skipWs s.data
  match parseJsonValue (l.length + 1) l with
  | some (v, rest) => if skipWs rest = [] then some v else none
  | none => none

/-! ## Tool-call block extraction
(`re.search(r'```tool\s*\n(.*?)\n```', text, re.DOTALL)` in
`Agent.parse_tool_call`). -/

/-- Python `\s` for `str` patterns (ASCII part; the repository's prompts and
messages are ASCII). -/
def pyRegexWs (c : Char) : Bool :=
  c = ' ' || c = '\t' || c = '\n' || c = '\r' || c = Char.ofNat 11 || c = Char.ofNat 12

/-- Split the haystack at the first occurrence of `needle`, returning the
part before it and the part after it. -/
def splitFirst (needle : List Char) : List Char → Option (List Char × List Char)
  | [] =>
    match stripPrefixChars needle [] with
    | some r => some ([], r)
    | none => none
  | c :: cs =>
    match stripPrefixChars needle (c :: cs) with
    | some r => some ([], r)
    | none =>
      match splitFirst needle cs with
      | some (pre, post) => some (c :: pre, post)
      | none => none

/-- Try the candidate lengths of the greedy `\s*` (largest first: `js` is
descending); for each, the lazy `(.*?)` is the text up to the first
`\n`+three-backticks. -/
def firstBodyAt (run tail0 : List Char) : List Nat → Option (List Char)
  | [] => none
  | j :: js =>
    match splitFirst ('\n' :: '`' :: '`' :: '`' :: []) (run.drop (j + 1) ++ tail0) with
    | some (pre, _) => some pre
    | none => firstBodyAt run tail0 js

/-- Match `\s*\n(.*?)\n`+backticks at the position just after a literal
tool fence tag; returns the captured group. -/
def matchAfterTag (rest : List Char) : Option (List Char) :=
  let run := rest.takeWhile pyRegexWs
  let tail0 := rest.drop run.length
  let js := ((List.range run.length).filter
    (fun j => decide (run.getD j ' ' = '\n'))).reverse
  firstBodyAt run tail0 js

/-- `re.search` for the tool-block pattern: try each start position left to
right. -/
def searchToolBlock : List Char → Option (List Char)
  | [] => none
  | c :: cs =>
    match stripPrefixChars ('`' :: '`' :: '`' :: 't' :: 'o' :: 'o' :: 'l' :: []) (c :: cs) with
    | some rest =>
      match matchAfterTag rest with
      | some body => some body
      | none => searchToolBlock cs
    | none => searchToolBlock cs

/-- `match.group(1)` of the tool-block search, as a string. -/
def toolBlockBody (text : String) : Option String :=
  (searchToolBlock text.data).map String.mk

/-- Result dictionary of `Agent.parse_tool_call`: the two entries
`tool_json.get("name")` and `tool_json.get("parameters", {})`.  (This
two-entry dict is always truthy in Python.) -/
structure ParsedToolCall where
  name : Option Jval
  parameters : Jval

/-- `Agent.parse_tool_call`: find the fenced block; `json.loads` its body;
on any exception (invalid JSON, or `.get` on a non-dict value raising
`AttributeError`) return `None`. -/
def parse_tool_call (text : String) : Option ParsedToolCall :=
  match toolBlockBody text with
  | none => none
  | some body =>
    match json_loads body with
    | some (Jval.jobj entries) =>
      some { name := pyDictGet entries "name"
             parameters := (pyDictGet entries "parameters").getD (Jval.jobj []) }
    | _ => none

/-! ## Tools (`src/llm/tools/tool.py`, `src/llm/tools/calculator_tool.py`) -/

/-- `ToolParameter` dataclass. -/
structure ToolParameter where
  type : String
  description : String
deriving DecidableEq, Repr

/-- A tool instance as the agent consumes it: the `name`, `description` and
`parameters` properties plus `execute`, which receives the keyword-argument
dict (the parsed JSON `parameters` value) and either returns a string or
raises (`Except.error`, carrying the exception text). -/
structure ToolImpl where
  name : String
  description : String
  parameters : List (String × ToolParameter)
  execute : Jval → Except String String

/-- Python `str(...)` of a parsed tool-call name as interpolated into the
`f`-strings of `Agent`: the dispatched names are strings, and an absent
`name` key is `None`.  (Other JSON values never name a registered tool and
are rendered representatively.) -/
def pyStrOfName : Option Jval → String
  | none => "None"
  | some Jval.jnull => "None"
  | some (Jval.jbool true) => "True"
  | some (Jval.jbool false) => "False"
  | some (Jval.jnum lx) => lx
  | some (Jval.jstr s) => s
  | some (Jval.jarr _) => "[...]"
  | some (Jval.jobj _) => "\x7b...\x7d"

/-- Skip the spaces of an arithmetic expression. -/
def evSkip (l : List Char) : List Char := l.dropWhile (· = ' ')

/-- Scan an integer literal (Python 3 rejects multi-digit literals with a
leading zero). -/
def scanIntLit (l : List Char) : Option (Int × List Char) :=
  let ds := l.takeWhile Char.isDigit
  match ds with
  | [] => none
  | '0' :: _ :: _ => none
  | _ =>
    some (Int.ofNat (ds.foldl (fun acc c => acc * 10 + (c.toNat - '0'.toNat)) 0),
      l.drop ds.length)

mutual

/-- Additive level of the modelled expression language: `term (('+'|'-') term)*`. -/
def evalSum : Nat → List Char → Option (Int × List Char)
  | 0, _ => none
  | fuel + 1, l =>
    match evalProd fuel l with
    | none => none
    | some (v, r) => evalSumLoop fuel v (evSkip r)

/-- Fold further `+ term` / `- term` parts onto an accumulated value. -/
def evalSumLoop : Nat → Int → List Char → Option (Int × List Char)
  | 0, _, _ => none
  | fuel + 1, acc, l =>
    match l with
    | '+' :: r =>
      match evalProd fuel (evSkip r) with
      | none => none
      | some (v, r2) => evalSumLoop fuel (acc + v) (evSkip r2)
    | '-' :: r =>
      match evalProd fuel (evSkip r) with
      | none => none
      | some (v, r2) => evalSumLoop fuel (acc - v) (evSkip r2)
    | _ => some (acc, l)

/-- Multiplicative level: `factor ('*' factor)*`. -/
def evalProd : Nat → List Char → Option (Int × List Char)
  | 0, _ => none
  | fuel + 1, l =>
    match evalAtom fuel l with
    | none => none
    | some (v, r) => evalProdLoop fuel v (evSkip r)

/-- Fold further `* factor` parts onto an accumulated value. -/
def evalProdLoop : Nat → Int → List Char → Option (Int × List Char)
  | 0, _, _ => none
  | fuel + 1, acc, l =>
    match l with
    | '*' :: r =>
      match evalAtom fuel (evSkip r) with
      | none => none
      | some (v, r2) => evalProdLoop fuel (acc * v) (evSkip r2)
    | _ => some (acc, l)

/-- Atom level: unary minus, integer literal, or parenthesized expression. -/
def evalAtom : Nat → List Char → Option (Int × List Char)
  | 0, _ => none
  | fuel + 1, l =>
    match l with
    | '-' :: r =>
      match evalAtom fuel (evSkip r) with
      | none => none
      | some (v, r2) => some (-v, r2)
    | '(' :: r =>
      match evalSum fuel (evSkip r) with
      | none => none
      | some (v, r2) =>
        match evSkip r2 with
        | ')' :: r3 => some (v, r3)
        | _ => none
    | _ => scanIntLit l

end

/-- `eval(cleaned_expr, ..., safe_dict)` of `CalculatorTool.execute`,
modelled on the integer-arithmetic fragment of Python expressions
(integer literals, unary minus, `+`, `-`, `*`, parentheses, spaces);
expressions outside the fragment are modelled as raising, which the
surrounding `try` turns into the `"Error evaluating expression: ..."`
result below. -/
def safeEvalInt (s : String) : Option Int :=
  let l := evSkip s.data
  match evalSum (l.length + 1) l with
  | some (v, rest) => if evSkip rest = [] then some v else none
  | none => none

/-- Body of `CalculatorTool.execute`: `str(eval(...))`, with any evaluation
exception caught and rendered into the returned string. -/
def calculatorEval (expression : String) : String :=
  match safeEvalInt expression with
  | some v => toString v
  | none => "Error evaluating expression: unsupported expression"

/-- `CalculatorTool.execute(**parameters)`: the keyword arguments must be
exactly `expression`, and `eval` needs a string argument; violations raise
`TypeError` at or inside the call (the exception text is representative). -/
def calculatorExecute (params : Jval) : Except String String :=
  match params with
  | Jval.jobj entries =>
    match pyDictGet entries "expression" with
    | some (Jval.jstr s) =>
      if entries.length = 1 then Except.ok (calculatorEval s)
      else Except.error "TypeError: execute got an unexpected keyword argument"
    | some _ => Except.error "TypeError: eval argument must be a string"
    | none => Except.error "TypeError: execute missing required argument"
  | _ => Except.error "TypeError: argument after a double star must be a mapping"

/-- The `CalculatorTool` instance. -/
def CalculatorTool : ToolImpl :=
  { name := "calculator"
    description := "Evaluates mathematical expressions. Use this for calculations."
    parameters :=
      [("expression",
        { type := "string", description := "The mathematical expression to evaluate" })]
    execute := calculatorExecute }

/-! ## Agent (`src/llm/agent.py`) -/

/-- Modelled from the spec: the constant `BASE_AGENT_SYSTEM_PROMPT` that
`src/llm/agent.py` imports from `src/llm/prompts/agent_system_prompt.py` is
not present in the source tree (that module defines `AGENT_SYSTEM_PROMPT`
only); per the spec it is "a base tool-usage instruction block", an opaque
text constant. -/
def BASE_AGENT_SYSTEM_PROMPT : String :=
  "You are Mowzio, an AI assistant capable of using tools. (base tool-usage instruction block)"

/-- `self.tools = \x7btool.name: tool for tool in tools\x7d`: a Python dict
comprehension — later tools with a duplicate name overwrite the value while
the key keeps its first-insertion position. -/
def buildRegistry (tools : List ToolImpl) : List (String × ToolImpl) :=
  tools.foldl (fun d t => pyDictInsert d t.name t) []

/-- Agent state: the tool registry built at construction. -/
structure Agent where
  tools : List (String × ToolImpl)

/-- `Agent.__init__` (the registry part; the system prompt is composed from
the same registry by `create_system_prompt`). -/
def Agent.ofTools (tools : List ToolImpl) : Agent :=
  { tools := buildRegistry tools }

/-- The per-tool block appended to the system prompt by
`Agent._create_system_prompt`.  The parameter loop subscripts
`param_details["description"]`, but the values are `ToolParameter`
dataclass instances with no `__getitem__`, so the first parameter of any
tool raises `TypeError: not subscriptable` (`Except.error`); only a tool
with an empty parameters dict renders successfully. -/
def toolEntryText (t : ToolImpl) : Except Unit String :=
  match t.parameters with
  | [] => Except.ok ("\n- " ++ t.name ++ ": " ++ t.description ++ "\n  Parameters:")
  | _ :: _ => Except.error ()

/-- The `for tool_json in tools_json:` loop of `_create_system_prompt`:
append each tool's entry, propagating the `TypeError` of the parameter
rendering. -/
def appendToolEntries : List (String × ToolImpl) → String → Except Unit String
  | [], acc => Except.ok acc
  | (_, t) :: rest, acc =>
    match toolEntryText t with
    | Except.error e => Except.error e
    | Except.ok s => appendToolEntries rest (acc ++ s)

/-- `Agent._create_system_prompt`: the base block, one entry per registry
value (`tools.values()`), and a "no tools" note when the registry is
empty; raises (`Except.error`) as soon as a tool with a non-empty
parameters dict is rendered. -/
def create_system_prompt (tools : List (String × ToolImpl)) : Except Unit String :=
  match appendToolEntries tools BASE_AGENT_SYSTEM_PROMPT with
  | Except.error e => Except.error e
  | Except.ok s =>
    if tools.length = 0 then
      Except.ok (s ++ "\nNo tools are currently available.")
    else
      Except.ok s

/-- `Agent.__init__`: build the registry, then compose the system prompt
from it; a `TypeError` in the prompt composition propagates out of the
constructor.  (Creating the backend client from the prompt is outside the
modelled state.) -/
def Agent.init (tools : List ToolImpl) : Except Unit Agent :=
  match create_system_prompt (buildRegistry tools) with
  | Except.error e => Except.error e
  | Except.ok _ => Except.ok (Agent.ofTools tools)

/-- Whether the parsed `name` value is hashable in Python: JSON arrays and
objects (Python `list`/`dict`) are not, everything else `json.loads` can
produce (`None`, booleans, numbers, strings) is. -/
def pyHashableName : Option Jval → Bool
  | some (Jval.jarr _) => false
  | some (Jval.jobj _) => false
  | _ => true

/-- `tool_name not in self.tools`, which runs **before** the `try` block of
`execute_tool`: an unhashable name (JSON array or object) makes the dict
membership test itself raise `TypeError: unhashable type`
(`Except.error`); a hashable non-string name is simply not a key of the
string-keyed registry. -/
def lookupToolName (reg : List (String × ToolImpl)) :
    Option Jval → Except Unit (Option ToolImpl)
  | some (Jval.jarr _) => Except.error ()
  | some (Jval.jobj _) => Except.error ()
  | some (Jval.jstr s) => Except.ok (pyDictGet reg s)
  | _ => Except.ok none

/-- `Agent.execute_tool`: the membership test on an unhashable name raises
`TypeError` (outside the `try`, so it propagates); unknown hashable names
produce an error string; a raising `execute` inside the `try` is caught
and converted to an error string. -/
def Agent.execute_tool (ag : Agent) (tool_call : ParsedToolCall) :
    Except Unit String :=
  match lookupToolName ag.tools tool_call.name with
  | Except.error e => Except.error e
  | Except.ok none =>
    Except.ok ("Error: Tool \x27" ++ pyStrOfName tool_call.name ++ "\x27 not found.")
  | Except.ok (some t) =>
    match t.execute tool_call.parameters with
    | Except.ok r => Except.ok r
    | Except.error e =>
      Except.ok ("Error executing tool \x27" ++ pyStrOfName tool_call.name ++ "\x27: " ++ e)

/-- Observable behaviour of one `Agent.process` call: the outcome (returned
text, or a propagated exception), the arguments of the `chat` calls made
(in order), and the tool calls whose `execute` ran. -/
structure ProcessTrace where
  output : Except Unit String
  chat_calls : List String
  tool_executions : List ParsedToolCall

/-- `Agent.process`.  `gen n` is the oracle for the generation backend: the
text returned by the `(n+1)`-th `chat` call of this `process` invocation.
A `TypeError` raised by `execute_tool` (unhashable parsed name) propagates
after the first generation call. -/
def Agent.process (ag : Agent) (gen : Nat → String) (user_message : String) :
    ProcessTrace :=
  let llm_response := gen 0
  match parse_tool_call llm_response with
  | none =>
    { output := Except.ok llm_response
      chat_calls := [user_message]
      tool_executions := [] }
  | some tool_call =>
    match ag.execute_tool tool_call with
    | Except.error e =>
      { output := Except.error e
        chat_calls := [user_message]
        tool_executions := [] }
    | Except.ok tool_result =>
      let result_message :=
        "Tool \x27" ++ pyStrOfName tool_call.name ++ "\x27 returned: " ++ tool_result
      let final_response := gen 1
      { output := Except.ok final_response
        chat_calls := [user_message, result_message]
        tool_executions := [tool_call] }

/-! ## Counting helpers -/

/-- Number of retained messages with `role != system`. -/
def nonSystemCount (l : List Message) : Nat :=
  (l.filter (fun m => decide (m.role ≠ Role.system))).length

/-- Number of retained messages with `role == system`. -/
def systemCount (l : List Message) : Nat :=
  (l.filter (fun m => decide (m.role = Role.system))).length

/-- Whether a JSON value is an object (a Python dict after `json.loads`). -/
def Jval.isObj : Jval → Bool
  | Jval.jobj _ => true
  | _ => false

/-- Specification-side description of the registry contents: the last tool
in the constructor argument list bearing a given name (`None` when no tool
bears it). -/
def lastNamed (nm : String) : List ToolImpl → Option ToolImpl
  | [] => none
  | t :: ts =>
    match lastNamed nm ts with
    | some r => some r
    | none => if t.name = nm then some t else none

/-! ## Helper lemmas -/

theorem popLeftWhileOver_eq_drop (w : Nat) (l : List Message) :
    InMemoryWindowBufferMemory.popLeftWhileOver w l = l.drop (l.length - w) := by
  induction l with
  | nil => simp [InMemoryWindowBufferMemory.popLeftWhileOver]
  | cons a t ih =>
    rw [InMemoryWindowBufferMemory.popLeftWhileOver]
    by_cases h : (a :: t).length > w
    · simp only [if_pos h, ih]
      have h1 : (a :: t).length - w = (t.length - w) + 1 := by
        simp only [List.length_cons] at h ⊢
        omega
      rw [h1, List.drop_succ_cons]
    · simp only [if_neg h]
      have h1 : (a :: t).length - w = 0 := by omega
      rw [h1, List.drop_zero]

theorem popLeftWhileOver_length_le (w : Nat) (l : List Message) :
    (InMemoryWindowBufferMemory.popLeftWhileOver w l).length ≤ w ∨
      InMemoryWindowBufferMemory.popLeftWhileOver w l = l := by
  rw [popLeftWhileOver_eq_drop]
  by_cases h : l.length ≤ w
  · right
    have : l.length - w = 0 := by omega
    rw [this, List.drop_zero]
  · left
    rw [List.length_drop]
    omega

theorem sortInsert_perm (key : Message → Nat) (m : Message) (l : List Message) :
    (sortInsert key m l).Perm (m :: l) := by
  induction l with
  | nil => simp [sortInsert]
  | cons x xs ih =>
    rw [sortInsert]
    by_cases h : key m ≤ key x
    · simp [h]
    · simp only [if_neg h]
      exact (ih.cons x).trans (List.Perm.swap m x xs)

theorem pySortByKey_perm (key : Message → Nat) (l : List Message) :
    (pySortByKey key l).Perm l := by
  induction l with
  | nil => simp [pySortByKey]
  | cons x xs ih =>
    rw [pySortByKey]
    exact ((sortInsert_perm key x (pySortByKey key xs)).trans (ih.cons x))

theorem pySortByKey_of_pairwise (key : Message → Nat) (l : List Message)
    (h : l.Pairwise (fun a b => key a ≤ key b)) : pySortByKey key l = l := by
  induction l with
  | nil => rfl
  | cons x xs ih =>
    rw [List.pairwise_cons] at h
    rw [pySortByKey, ih h.2]
    cases xs with
    | nil => rfl
    | cons y ys =>
      rw [sortInsert, if_pos (h.1 y (by simp))]

theorem pyIndex_cons (x y : Message) (l : List Message) :
    pyIndex (x :: l) y = if y = x then 0 else pyIndex l y + 1 := by
  simp only [pyIndex, List.findIdx_cons]
  by_cases h : y = x
  · subst h
    simp
  · have h2 : decide (x = y) = false := decide_eq_false (fun he => h he.symm)
    simp [h2, h]

theorem pairwise_pyIndex_lt (l : List Message) (h : l.Nodup) :
    l.Pairwise (fun a b => pyIndex l a < pyIndex l b) := by
  induction l with
  | nil => simp
  | cons x xs ih =>
    rw [List.nodup_cons] at h
    rw [List.pairwise_cons]
    constructor
    · intro b hb
      have hbx : ¬ b = x := fun he => h.1 (he ▸ hb)
      rw [pyIndex_cons, pyIndex_cons, if_pos rfl, if_neg hbx]
      omega
    · have := ih h.2
      refine this.imp_of_mem ?_
      intro a b ha hb hab
      have hax : ¬ a = x := fun he => h.1 (he ▸ ha)
      have hbx : ¬ b = x := fun he => h.1 (he ▸ hb)
      rw [pyIndex_cons, pyIndex_cons, if_neg hax, if_neg hbx]
      omega

theorem pyDictGet_insert {α : Type} (d : List (String × α)) (k k2 : String) (v : α) :
    pyDictGet (pyDictInsert d k v) k2 =
      if k2 = k then some v else pyDictGet d k2 := by
  induction d with
  | nil =>
    by_cases h : k2 = k
    · simp [pyDictInsert, pyDictGet, h]
    · simp [pyDictInsert, pyDictGet, h, Ne.symm h]
  | cons kv rest ih =>
    obtain ⟨k0, v0⟩ := kv
    rw [pyDictInsert]
    by_cases h0 : k0 = k
    · subst h0
      by_cases h2 : k2 = k0
      · subst h2
        simp [pyDictGet]
      · simp [pyDictGet, h2, Ne.symm h2]
    · rw [if_neg h0]
      by_cases h2 : k0 = k2
      · subst h2
        rw [if_neg h0]
        simp [pyDictGet]
      · simp only [pyDictGet, if_neg h2, ih]

theorem systemCount_add_nonSystemCount (l : List Message) :
    systemCount l + nonSystemCount l = l.length := by
  induction l with
  | nil => simp [systemCount, nonSystemCount]
  | cons m t ih =>
    by_cases h : m.role = Role.system
    · simp [systemCount, nonSystemCount, List.filter_cons, h] at ih ⊢
      omega
    · simp [systemCount, nonSystemCount, List.filter_cons, h] at ih ⊢
      omega

/-- Taking the window-suffix twice collapses: keeping the last `w` elements
of (the last `w` of `a`, extended by `b`) keeps the last `w` of `a ++ b`. -/
theorem lastN_drop_append (w : Nat) (a b : List Message) :
    ((a.drop (a.length - w)) ++ b).drop ((a.drop (a.length - w) ++ b).length - w)
      = (a ++ b).drop ((a ++ b).length - w) := by
  by_cases hw : a.length ≤ w
  · have hj : a.length - w = 0 := by omega
    simp [hj]
  · have hj : a.length - w ≤ a.length := by omega
    rw [← List.drop_append_of_le_length hj, List.drop_drop]
    congr 1
    simp only [List.length_append, List.length_drop]
    omega

namespace InMemoryWindowBufferMemory

theorem add_message_system (st : InMemoryWindowBufferMemory) (s : Message)
    (h : s.role = Role.system) :
    st.add_message s = { st with system_message := some s } := by
  simp [add_message, h]

theorem add_message_nonsystem (st : InMemoryWindowBufferMemory) (m : Message)
    (h : m.role ≠ Role.system) :
    st.add_message m =
      { st with messages := popLeftWhileOver st.window_size (st.messages ++ [m]) } := by
  simp [add_message, h]

/-- Folding only non-system adds over a state computes the window suffix of
the accumulated message list and leaves the system slot alone. -/
theorem foldl_add_nonsystem (msgs : List Message) :
    ∀ (w : Nat) (acc : List Message) (sys : Option Message),
      (∀ m ∈ msgs, m.role ≠ Role.system) → acc.length ≤ w →
      msgs.foldl add_message ⟨w, acc, sys⟩
        = ⟨w, (acc ++ msgs).drop ((acc ++ msgs).length - w), sys⟩ := by
  induction msgs with
  | nil =>
    intro w acc sys _ hlen
    have : acc.length - w = 0 := by omega
    simp [this]
  | cons m ms ih =>
    intro w acc sys hroles hlen
    have hm : m.role ≠ Role.system := hroles m (by simp)
    rw [List.foldl_cons, add_message_nonsystem _ _ hm]
    simp only
    rw [popLeftWhileOver_eq_drop]
    rw [ih w _ sys (fun x hx => hroles x (by simp [hx])) (by
      rw [List.length_drop]
      omega)]
    rw [lastN_drop_append]
    simp

/-- Any sequence of adds preserves the window size and keeps the deque
length within the window. -/
theorem foldl_add_invariant (msgs : List Message) :
    ∀ (st : InMemoryWindowBufferMemory), st.messages.length ≤ st.window_size →
      (msgs.foldl add_message st).window_size = st.window_size ∧
        (msgs.foldl add_message st).messages.length ≤ st.window_size := by
  induction msgs with
  | nil => intro st h; exact ⟨rfl, h⟩
  | cons m ms ih =>
    intro st h
    rw [List.foldl_cons]
    by_cases hm : m.role = Role.system
    · rw [add_message_system st m hm]
      exact ih _ h
    · rw [add_message_nonsystem st m hm]
      refine (ih _ ?_)
      simp only [popLeftWhileOver_eq_drop, List.length_drop, List.length_append,
        List.length_singleton]
      omega

/-- Any sequence of adds keeps the deque free of system messages. -/
theorem foldl_add_roles (msgs : List Message) :
    ∀ (st : InMemoryWindowBufferMemory),
      (∀ x ∈ st.messages, x.role ≠ Role.system) →
      ∀ x ∈ (msgs.foldl add_message st).messages, x.role ≠ Role.system := by
  induction msgs with
  | nil => intro st h; exact h
  | cons m ms ih =>
    intro st h
    rw [List.foldl_cons]
    by_cases hm : m.role = Role.system
    · rw [add_message_system st m hm]
      exact ih _ h
    · rw [add_message_nonsystem st m hm]
      refine ih _ ?_
      intro x hx
      simp only [popLeftWhileOver_eq_drop] at hx
      have hx2 : x ∈ st.messages ++ [m] := (List.drop_subset _ _) hx
      rcases List.mem_append.mp hx2 with h1 | h1
      · exact h x h1
      · simp only [List.mem_singleton] at h1
        exact h1 ▸ hm

/-- Any sequence of adds keeps the system slot either empty or holding a
system-role message. -/
theorem foldl_add_slot_role (msgs : List Message) :
    ∀ (st : InMemoryWindowBufferMemory),
      (∀ s, st.system_message = some s → s.role = Role.system) →
      ∀ s, (msgs.foldl add_message st).system_message = some s →
        s.role = Role.system := by
  induction msgs with
  | nil => intro st h; exact h
  | cons m ms ih =>
    intro st h
    rw [List.foldl_cons]
    by_cases hm : m.role = Role.system
    · rw [add_message_system st m hm]
      refine ih _ ?_
      intro s hs
      simp only at hs
      cases hs
      exact hm
    · rw [add_message_nonsystem st m hm]
      exact ih _ h

end InMemoryWindowBufferMemory

theorem nonSystemCount_append (a b : List Message) :
    nonSystemCount (a ++ b) = nonSystemCount a + nonSystemCount b := by
  simp [nonSystemCount, List.filter_append]

theorem nonSystemCount_perm {a b : List Message} (h : a.Perm b) :
    nonSystemCount a = nonSystemCount b := by
  simp only [nonSystemCount]
  exact (h.filter _).length_eq

theorem nonSystemCount_filter_system (l : List Message) :
    nonSystemCount (l.filter (fun x => decide (x.role = Role.system))) = 0 := by
  simp only [nonSystemCount, List.length_eq_zero]
  rw [List.filter_eq_nil_iff]
  intro a ha
  have := List.of_mem_filter ha
  simp at this ⊢
  exact this

theorem nonSystemCount_of_all_nonsystem (l : List Message)
    (h : ∀ x ∈ l, x.role ≠ Role.system) : nonSystemCount l = l.length := by
  simp only [nonSystemCount]
  rw [List.filter_eq_self.mpr]
  intro a ha
  simpa using h a ha

theorem nonSystemCount_single_system (s : Message) (hs : s.role = Role.system) :
    nonSystemCount [s] = 0 := by
  simp [nonSystemCount, hs]

namespace PersistedWindowBufferMemory

theorem add_message_of_le (st : PersistedWindowBufferMemory) (m : Message)
    (h : nonSystemCount (st.store ++ [m]) ≤ st.window_size) :
    st.add_message m = { st with store := st.store ++ [m] } := by
  have hsplit := systemCount_add_nonSystemCount (st.store ++ [m])
  simp only [add_message]
  rw [if_neg]
  simp only [systemCount, nonSystemCount] at hsplit h
  omega

theorem add_message_of_gt (st : PersistedWindowBufferMemory) (m : Message)
    (h : nonSystemCount (st.store ++ [m]) > st.window_size) :
    st.add_message m =
      { st with store := pruneStore st.window_size (st.store ++ [m]) } := by
  have hsplit := systemCount_add_nonSystemCount (st.store ++ [m])
  simp only [add_message, pruneStore]
  rw [if_pos]
  simp only [systemCount, nonSystemCount] at hsplit h
  omega

theorem add_message_window (st : PersistedWindowBufferMemory) (m : Message) :
    (st.add_message m).window_size = st.window_size := by
  by_cases h : nonSystemCount (st.store ++ [m]) > st.window_size
  · rw [add_message_of_gt st m h]
  · rw [add_message_of_le st m (by omega)]

/-- Adding a message never lets the retained non-system count exceed the
window (for a positive window size). -/
theorem add_message_count (st : PersistedWindowBufferMemory) (m : Message)
    (hw : 1 ≤ st.window_size) :
    nonSystemCount (st.add_message m).store ≤ st.window_size := by
  by_cases h : nonSystemCount (st.store ++ [m]) > st.window_size
  · rw [add_message_of_gt st m h]
    simp only [pruneStore]
    set all := st.store ++ [m] with hall
    set sysM := all.filter (fun x => decide (x.role = Role.system)) with hsys
    set nonSysM := all.filter (fun x => decide (x.role ≠ Role.system)) with hns
    have hperm := pySortByKey_perm (pyIndex all)
      (sysM ++ pyLastSlice st.window_size nonSysM)
    rw [nonSystemCount_perm hperm, nonSystemCount_append,
      nonSystemCount_filter_system]
    have hlenNonSys : nonSysM.length = nonSystemCount all := by
      simp [nonSystemCount, hns]
    have hmem : ∀ x ∈ pyLastSlice st.window_size nonSysM, x.role ≠ Role.system := by
      intro x hx
      have hx2 : x ∈ nonSysM := by
        simp only [pyLastSlice] at hx
        split at hx
        · exact hx
        · exact (List.drop_subset _ _) hx
      have := List.of_mem_filter hx2
      simpa using this
    rw [nonSystemCount_of_all_nonsystem _ hmem]
    simp only [pyLastSlice]
    rw [if_neg (by omega)]
    rw [List.length_drop]
    omega
  · rw [add_message_of_le st m (by omega)]
    simp only
    omega

/-- Fold version of `add_message_count`: the window invariant on the
non-system count holds after any sequence of adds. -/
theorem foldl_add_count (msgs : List Message) :
    ∀ (st : PersistedWindowBufferMemory), 1 ≤ st.window_size →
      nonSystemCount st.store ≤ st.window_size →
      (msgs.foldl add_message st).window_size = st.window_size ∧
        nonSystemCount (msgs.foldl add_message st).store ≤ st.window_size := by
  induction msgs with
  | nil => intro st _ h; exact ⟨rfl, h⟩
  | cons m ms ih =>
    intro st hw h
    rw [List.foldl_cons]
    have hwin := add_message_window st m
    have := ih (st.add_message m) (by omega) (by
      rw [hwin]
      exact add_message_count st m hw)
    rw [hwin] at this
    exact this

/-- A system-role message present in the list being rebuilt survives
`add_message`. -/
theorem add_message_mem_system (st : PersistedWindowBufferMemory) (m x : Message)
    (hx : x ∈ st.store ++ [m]) (hrole : x.role = Role.system) :
    x ∈ (st.add_message m).store := by
  by_cases h : nonSystemCount (st.store ++ [m]) > st.window_size
  · rw [add_message_of_gt st m h]
    simp only [pruneStore]
    refine ((pySortByKey_perm _ _).mem_iff).mpr ?_
    refine List.mem_append.mpr (Or.inl ?_)
    exact List.mem_filter.mpr ⟨hx, by simpa using hrole⟩
  · rw [add_message_of_le st m (by omega)]
    simpa using hx

/-- A retained system-role message survives any further sequence of adds. -/
theorem foldl_add_mem_system (msgs : List Message) :
    ∀ (st : PersistedWindowBufferMemory) (x : Message), x ∈ st.store →
      x.role = Role.system → x ∈ (msgs.foldl add_message st).store := by
  induction msgs with
  | nil => intro st x hx _; exact hx
  | cons m ms ih =>
    intro st x hx hrole
    rw [List.foldl_cons]
    exact ih _ x (add_message_mem_system st m x (by simp [hx]) hrole) hrole

/-- Adding a system message when the window is respected simply appends it
to the backing list (it does not replace a previous system message). -/
theorem add_message_system_append (st : PersistedWindowBufferMemory) (s : Message)
    (hs : s.role = Role.system) (h : nonSystemCount st.store ≤ st.window_size) :
    (st.add_message s).store = st.store ++ [s] := by
  rw [add_message_of_le st s (by
    rw [nonSystemCount_append, nonSystemCount_single_system s hs]
    omega)]

/-- With distinct non-system messages, the pruning rebuild (prune plus
stable sort by first index) behaves as plain FIFO eviction. -/
theorem add_message_nodup_nonsys (w : Nat) (st : List Message) (m : Message)
    (hw : 1 ≤ w)
    (hroles : ∀ x ∈ st ++ [m], x.role ≠ Role.system)
    (hnd : (st ++ [m]).Nodup)
    (hlen : st.length ≤ w) :
    PersistedWindowBufferMemory.add_message ⟨w, st⟩ m
      = ⟨w, (st ++ [m]).drop (st.length + 1 - w)⟩ := by
  have hns : (st ++ [m]).filter (fun x => decide (x.role ≠ Role.system)) = st ++ [m] :=
    List.filter_eq_self.mpr (fun a ha => by simpa using hroles a ha)
  have hsysnil : (st ++ [m]).filter (fun x => decide (x.role = Role.system)) = [] :=
    List.filter_eq_nil_iff.mpr (fun a ha => by simpa using hroles a ha)
  have hcount : nonSystemCount (st ++ [m]) = st.length + 1 := by
    rw [nonSystemCount_of_all_nonsystem _ hroles]
    simp
  by_cases hgt : st.length + 1 > w
  · have hlw : st.length = w := by omega
    rw [PersistedWindowBufferMemory.add_message_of_gt ⟨w, st⟩ m (by
      simpa [hcount] using hgt)]
    simp only [pruneStore, hns, hsysnil, List.nil_append]
    have hslice : pyLastSlice w (st ++ [m]) = (st ++ [m]).drop 1 := by
      simp only [pyLastSlice]
      rw [if_neg (by omega)]
      congr 1
      simp
      omega
    rw [hslice]
    have hpw : (st ++ [m]).Pairwise
        (fun a b => pyIndex (st ++ [m]) a ≤ pyIndex (st ++ [m]) b) :=
      (pairwise_pyIndex_lt (st ++ [m]) hnd).imp le_of_lt
    have hpw2 := hpw.sublist (List.drop_sublist 1 (st ++ [m]))
    rw [pySortByKey_of_pairwise _ _ hpw2]
    have : st.length + 1 - w = 1 := by omega
    rw [this]
  · rw [PersistedWindowBufferMemory.add_message_of_le ⟨w, st⟩ m (by
      simpa [hcount] using hgt)]
    have : st.length + 1 - w = 0 := by omega
    rw [this]
    simp

/-- A sequence of adds of pairwise-distinct non-system messages on a fresh
persisted memory retains exactly the window suffix, in order. -/
theorem runAdds_nodup_nonsys (w : Nat) (msgs : List Message) (hw : 1 ≤ w)
    (hroles : ∀ x ∈ msgs, x.role ≠ Role.system) (hnd : msgs.Nodup) :
    PersistedWindowBufferMemory.runAdds w msgs
      = ⟨w, msgs.drop (msgs.length - w)⟩ := by
  induction msgs using List.reverseRecOn with
  | nil => simp [PersistedWindowBufferMemory.runAdds, PersistedWindowBufferMemory.init]
  | append_singleton ms m ih =>
    have hfold : PersistedWindowBufferMemory.runAdds w (ms ++ [m])
        = PersistedWindowBufferMemory.add_message
            (PersistedWindowBufferMemory.runAdds w ms) m := by
      simp [PersistedWindowBufferMemory.runAdds, List.foldl_append]
    have hsub : List.Sublist (ms.drop (ms.length - w) ++ [m]) (ms ++ [m]) :=
      (List.drop_sublist _ ms).append_right [m]
    rw [hfold, ih (fun x hx => hroles x (by simp [hx]))
      (hnd.sublist (List.sublist_append_left ms [m]))]
    rw [add_message_nodup_nonsys w _ m hw
      (fun x hx => hroles x (hsub.subset hx))
      (hnd.sublist hsub)
      (by rw [List.length_drop]; omega)]
    have hfinal := lastN_drop_append w ms [m]
    simp only [List.length_append, List.length_drop, List.length_singleton] at hfinal ⊢
    rw [hfinal]

end PersistedWindowBufferMemory

/-! ## Tool registry lemmas -/

theorem buildRegistry_get_aux (ts : List ToolImpl) :
    ∀ (d : List (String × ToolImpl)) (nm : String),
      pyDictGet (ts.foldl (fun d t => pyDictInsert d t.name t) d) nm
        = match lastNamed nm ts with
          | some r => some r
          | none => pyDictGet d nm := by
  induction ts with
  | nil => intro d nm; simp [lastNamed]
  | cons t ts ih =>
    intro d nm
    rw [List.foldl_cons, ih]
    cases h : lastNamed nm ts with
    | some r => simp [lastNamed, h]
    | none =>
      simp only [lastNamed, h]
      rw [pyDictGet_insert]
      by_cases he : nm = t.name
      · simp [he]
      · rw [if_neg he, if_neg (Ne.symm he)]

theorem buildRegistry_get (ts : List ToolImpl) (nm : String) :
    pyDictGet (buildRegistry ts) nm = lastNamed nm ts := by
  rw [buildRegistry, buildRegistry_get_aux]
  cases h : lastNamed nm ts <;> simp [pyDictGet]

theorem pyDictInsert_keys {α : Type} (d : List (String × α)) (k : String) (v : α) :
    (pyDictInsert d k v).map Prod.fst =
      if k ∈ d.map Prod.fst then d.map Prod.fst else d.map Prod.fst ++ [k] := by
  induction d with
  | nil => simp [pyDictInsert]
  | cons kv rest ih =>
    obtain ⟨k0, v0⟩ := kv
    rw [pyDictInsert]
    by_cases h0 : k0 = k
    · subst h0
      simp
    · rw [if_neg h0]
      simp only [List.map_cons, ih]
      by_cases hk : k ∈ rest.map Prod.fst
      · rw [if_pos hk, if_pos (by simp [hk])]
      · rw [if_neg hk, if_neg (by
          simp only [List.map_cons, List.mem_cons]
          push_neg
          exact ⟨Ne.symm h0, hk⟩)]
        simp

theorem buildRegistry_keys_aux (ts : List ToolImpl) :
    ∀ (d : List (String × ToolImpl)), (d.map Prod.fst).Nodup →
      ((ts.foldl (fun d t => pyDictInsert d t.name t) d).map Prod.fst).Nodup ∧
        (∀ nm, nm ∈ (ts.foldl (fun d t => pyDictInsert d t.name t) d).map Prod.fst ↔
          nm ∈ d.map Prod.fst ∨ nm ∈ ts.map ToolImpl.name) := by
  induction ts with
  | nil =>
    intro d hd
    refine ⟨hd, ?_⟩
    intro nm
    simp
  | cons t ts ih =>
    intro d hd
    rw [List.foldl_cons]
    have hkeys := pyDictInsert_keys d t.name t
    have hnodup : ((pyDictInsert d t.name t).map Prod.fst).Nodup := by
      rw [hkeys]
      by_cases hmem : t.name ∈ d.map Prod.fst
      · rw [if_pos hmem]; exact hd
      · rw [if_neg hmem]
        simp [List.nodup_append, hd, hmem]
    obtain ⟨h1, h2⟩ := ih (pyDictInsert d t.name t) hnodup
    refine ⟨h1, ?_⟩
    intro nm
    rw [h2 nm, hkeys]
    by_cases hmem : t.name ∈ d.map Prod.fst
    · rw [if_pos hmem]
      simp only [List.map_cons, List.mem_cons]
      constructor
      · rintro (h | h)
        · exact Or.inl h
        · exact Or.inr (Or.inr h)
      · rintro (h | h | h)
        · exact Or.inl h
        · exact Or.inl (h ▸ hmem)
        · exact Or.inr h
    · rw [if_neg hmem]
      simp only [List.mem_append, List.mem_singleton, List.map_cons, List.mem_cons]
      tauto

theorem buildRegistry_keys_nodup (ts : List ToolImpl) :
    ((buildRegistry ts).map Prod.fst).Nodup :=
  (buildRegistry_keys_aux ts [] (by simp)).1

theorem buildRegistry_keys_mem (ts : List ToolImpl) (nm : String) :
    nm ∈ (buildRegistry ts).map Prod.fst ↔ nm ∈ ts.map ToolImpl.name := by
  have h := (buildRegistry_keys_aux ts [] (by simp)).2 nm
  rw [buildRegistry, h]
  simp

theorem buildRegistry_length (ts : List ToolImpl) :
    (buildRegistry ts).length = (ts.map ToolImpl.name).dedup.length := by
  have hperm : ((buildRegistry ts).map Prod.fst).Perm (ts.map ToolImpl.name).dedup := by
    refine List.perm_of_nodup_nodup_toFinset_eq (buildRegistry_keys_nodup ts)
      (List.nodup_dedup _) ?_
    ext nm
    rw [List.mem_toFinset, List.mem_toFinset, List.mem_dedup, buildRegistry_keys_mem]
  have := hperm.length_eq
  simpa using this

theorem systemCount_single_system (s : Message) (hs : s.role = Role.system) :
    systemCount [s] = 1 := by
  simp [systemCount, hs]

theorem systemCount_of_all_nonsystem (l : List Message)
    (h : ∀ x ∈ l, x.role ≠ Role.system) : systemCount l = 0 := by
  have h1 := systemCount_add_nonSystemCount l
  have h2 := nonSystemCount_of_all_nonsystem l h
  omega

/-! ## Claims -/

/-- C1, counterexample: on `PersistedWindowBufferMemory`, adding a second
system message appends it instead of replacing the first, so two messages
with `role == system` are retained — refuting the claim for the persisted
variant. -/
theorem c1_counterexample :
    (((PersistedWindowBufferMemory.init 20).add_message
          ⟨"first prompt", Role.system⟩).add_message
          ⟨"second prompt", Role.system⟩).get_messages
        = [⟨"first prompt", Role.system⟩, ⟨"second prompt", Role.system⟩] ∧
      systemCount (((PersistedWindowBufferMemory.init 20).add_message
          ⟨"first prompt", Role.system⟩).add_message
          ⟨"second prompt", Role.system⟩).get_messages = 2 := by
  exact ⟨rfl, rfl⟩

/-- C1 (amended): after every sequence of `add_message` calls with window
size `W ≥ 1`, `InMemoryWindowBufferMemory` retains at most `W` non-system
messages and at most one system message, and a new system message replaces
the prior one; `PersistedWindowBufferMemory` also retains at most `W`
non-system messages, but a new system message is appended to the backing
list rather than replacing the prior one. -/
theorem c1_window_invariant (w : Nat) (msgs : List Message) (hw : 1 ≤ w) :
    (nonSystemCount (InMemoryWindowBufferMemory.runAdds w msgs).get_messages ≤ w ∧
      systemCount (InMemoryWindowBufferMemory.runAdds w msgs).get_messages ≤ 1) ∧
    (∀ (st : InMemoryWindowBufferMemory) (s : Message), s.role = Role.system →
      (st.add_message s).system_message = some s ∧
        (st.add_message s).messages = st.messages) ∧
    nonSystemCount (PersistedWindowBufferMemory.runAdds w msgs).get_messages ≤ w ∧
    (∀ (st : PersistedWindowBufferMemory) (s : Message), s.role = Role.system →
      nonSystemCount st.store ≤ st.window_size →
      (st.add_message s).store = st.store ++ [s]) := by
  refine ⟨?_, ?_, ?_, ?_⟩
  · have hinv := InMemoryWindowBufferMemory.foldl_add_invariant msgs
      (InMemoryWindowBufferMemory.init w) (by simp [InMemoryWindowBufferMemory.init])
    have hroles := InMemoryWindowBufferMemory.foldl_add_roles msgs
      (InMemoryWindowBufferMemory.init w)
      (by simp [InMemoryWindowBufferMemory.init])
    have hslot := InMemoryWindowBufferMemory.foldl_add_slot_role msgs
      (InMemoryWindowBufferMemory.init w)
      (by simp [InMemoryWindowBufferMemory.init])
    set st2 := InMemoryWindowBufferMemory.runAdds w msgs with hst2
    have hwin : st2.window_size = w := by
      rw [hst2]
      exact hinv.1
    have hlen : st2.messages.length ≤ w := hinv.2
    have hns : nonSystemCount st2.messages = st2.messages.length :=
      nonSystemCount_of_all_nonsystem _ hroles
    have hsc : systemCount st2.messages = 0 :=
      systemCount_of_all_nonsystem _ hroles
    cases hsys : st2.system_message with
    | none =>
      simp only [InMemoryWindowBufferMemory.get_messages, hsys, List.nil_append]
      omega
    | some s =>
      have hrs := hslot s hsys
      simp only [InMemoryWindowBufferMemory.get_messages, hsys]
      constructor
      · rw [show [s] ++ st2.messages = [s] ++ st2.messages from rfl,
          nonSystemCount_append, nonSystemCount_single_system s hrs]
        omega
      · rw [show [s] ++ st2.messages = [s] ++ st2.messages from rfl]
        simp only [systemCount, List.filter_append, List.length_append] at hsc ⊢
        have : (List.filter (fun m => decide (m.role = Role.system)) [s]).length = 1 := by
          simp [hrs]
        omega
  · intro st s hs
    rw [InMemoryWindowBufferMemory.add_message_system st s hs]
    exact ⟨rfl, rfl⟩
  · have h := PersistedWindowBufferMemory.foldl_add_count msgs
      (PersistedWindowBufferMemory.init w) hw
      (by simp [PersistedWindowBufferMemory.init, nonSystemCount])
    exact h.2
  · intro st s hs hcount
    exact PersistedWindowBufferMemory.add_message_system_append st s hs hcount

/-- C1, witness: the amended invariant evaluated on window size 1 with two
user messages, and the replacement/append behaviours at concrete states. -/
theorem c1_witness :
    nonSystemCount (InMemoryWindowBufferMemory.runAdds 1
        [⟨"u1", Role.user⟩, ⟨"u2", Role.user⟩]).get_messages ≤ 1 ∧
      ((InMemoryWindowBufferMemory.init 1).add_message
        ⟨"sys", Role.system⟩).system_message = some ⟨"sys", Role.system⟩ ∧
      nonSystemCount (PersistedWindowBufferMemory.runAdds 1
        [⟨"u1", Role.user⟩, ⟨"u2", Role.user⟩]).get_messages ≤ 1 ∧
      ((PersistedWindowBufferMemory.init 1).add_message
        ⟨"sys", Role.system⟩).store = [⟨"sys", Role.system⟩] := by
  have h := c1_window_invariant 1 [⟨"u1", Role.user⟩, ⟨"u2", Role.user⟩] (by decide)
  refine ⟨h.1.1, (h.2.1 _ _ rfl).1, h.2.2.1, ?_⟩
  have h4 := h.2.2.2 (PersistedWindowBufferMemory.init 1)
    ⟨"sys", Role.system⟩ rfl (by decide)
  simpa using h4

/-- C2, counterexample: with the window already full (window size 1 holding
one user message), a failed chat call is not rolled back to the starting
state — the eviction performed while adding the user message loses the
oldest message. -/
theorem c2_counterexample :
    (LlmClient.chat (InMemoryWindowBufferMemory.runAdds 1 [⟨"a", Role.user⟩])
        "b" (Except.error ())).2.get_messages
      ≠ (InMemoryWindowBufferMemory.runAdds 1 [⟨"a", Role.user⟩]).get_messages := by
  decide

/-- C2 (amended): if the generation backend raises, `chat` leaves the memory
exactly as it was before the call — provided the memory held fewer than `W`
non-system messages before the call; at exactly `W` the rollback loses the
evicted oldest message. -/
theorem c2_rollback (mem : InMemoryWindowBufferMemory) (user_message : String)
    (h : mem.messages.length < mem.window_size) :
    LlmClient.chat mem user_message (Except.error ())
      = (Except.error (), mem) := by
  obtain ⟨w, msgs, sys⟩ := mem
  simp only [LlmClient.chat]
  rw [InMemoryWindowBufferMemory.add_message_nonsystem ⟨w, msgs, sys⟩
    ⟨user_message, Role.user⟩ (show Role.user ≠ Role.system by decide)]
  simp only [InMemoryWindowBufferMemory.remove_last_message]
  rw [popLeftWhileOver_eq_drop]
  simp only at h
  have h0 : (msgs ++ [(⟨user_message, Role.user⟩ : Message)]).length - w = 0 := by
    simp only [List.length_append, List.length_singleton]
    omega
  rw [h0, List.drop_zero]
  simp

/-- C2, witness: the rollback equation evaluated at an empty memory of
window size 5. -/
theorem c2_witness :
    LlmClient.chat (InMemoryWindowBufferMemory.init 5) "hello" (Except.error ())
      = (Except.error (), InMemoryWindowBufferMemory.init 5) :=
  c2_rollback _ _ (by decide)

/-- C3, counterexample: on `PersistedWindowBufferMemory` with window size 2
and messages `a, b, a` (a duplicate), the rebuild sorts by
`all_messages.index`, which returns the first occurrence for duplicates:
the retained messages come back as `[a, b]` instead of the claimed
`[b, a]`. -/
theorem c3_counterexample :
    ¬ ((PersistedWindowBufferMemory.runAdds 2
          [⟨"a", Role.user⟩, ⟨"b", Role.user⟩, ⟨"a", Role.user⟩]).get_messages
        = [⟨"a", Role.user⟩, ⟨"b", Role.user⟩, ⟨"a", Role.user⟩].drop 1) := by
  decide

/-- C3 (amended): adding `N+k` non-system messages (`k ≥ 1`) to a fresh
window-size-`N` memory retains exactly the last `N` in insertion order —
unconditionally for `InMemoryWindowBufferMemory`, and for
`PersistedWindowBufferMemory` when `N ≥ 1` and the messages are pairwise
distinct (with duplicates, the index-based re-sort can break the order). -/
theorem c3_eviction_order (N k : Nat) (msgs : List Message) (hk : 1 ≤ k)
    (hlen : msgs.length = N + k) (hroles : ∀ m ∈ msgs, m.role ≠ Role.system) :
    (InMemoryWindowBufferMemory.runAdds N msgs).get_messages = msgs.drop k ∧
    (1 ≤ N → msgs.Nodup →
      (PersistedWindowBufferMemory.runAdds N msgs).get_messages = msgs.drop k) := by
  constructor
  · have h := InMemoryWindowBufferMemory.foldl_add_nonsystem msgs N [] none hroles
      (by simp)
    have : InMemoryWindowBufferMemory.runAdds N msgs
        = ⟨N, msgs.drop (msgs.length - N), none⟩ := by
      rw [InMemoryWindowBufferMemory.runAdds, InMemoryWindowBufferMemory.init]
      simpa using h
    rw [this]
    simp only [InMemoryWindowBufferMemory.get_messages, List.nil_append]
    congr 1
    omega
  · intro hN hnd
    rw [PersistedWindowBufferMemory.runAdds_nodup_nonsys N msgs hN hroles hnd]
    simp only [PersistedWindowBufferMemory.get_messages]
    congr 1
    omega

/-- C3, witness: eviction order evaluated at `N = 1`, `k = 1` with two
distinct user messages, for both variants. -/
theorem c3_witness :
    (InMemoryWindowBufferMemory.runAdds 1
        [⟨"a", Role.user⟩, ⟨"b", Role.user⟩]).get_messages = [⟨"b", Role.user⟩] ∧
    (PersistedWindowBufferMemory.runAdds 1
        [⟨"a", Role.user⟩, ⟨"b", Role.user⟩]).get_messages = [⟨"b", Role.user⟩] := by
  have h := c3_eviction_order 1 1 [⟨"a", Role.user⟩, ⟨"b", Role.user⟩]
    (by decide) (by decide) (by decide)
  exact ⟨h.1, h.2 (by decide) (by decide)⟩

/-- C4, counterexample: on `PersistedWindowBufferMemory` with window size 1,
interleaving the system message after six non-system adds (`N+5 = 6`)
leaves it present but **last** in `get_messages`, not first — the persisted
variant keeps a system message at its insertion position. -/
theorem c4_counterexample :
    ((PersistedWindowBufferMemory.runAdds 1
        [⟨"u1", Role.user⟩, ⟨"u2", Role.user⟩, ⟨"u3", Role.user⟩,
         ⟨"u4", Role.user⟩, ⟨"u5", Role.user⟩, ⟨"u6", Role.user⟩,
         ⟨"sys", Role.system⟩]).get_messages).head?
      ≠ some ⟨"sys", Role.system⟩ := by
  decide

/-- C4 (amended): for any interleaving of one system message among `N+5`
non-system adds under window size `N`, the system message is still present
in both variants; in `InMemoryWindowBufferMemory` it is also the first
element of `get_messages`, while in `PersistedWindowBufferMemory` it stays
at its insertion-relative position and need not be first. -/
theorem c4_system_preservation (N p : Nat) (us : List Message) (s : Message)
    (_hp : p ≤ us.length) (_hlen : us.length = N + 5)
    (hus : ∀ m ∈ us, m.role ≠ Role.system) (hs : s.role = Role.system) :
    ((InMemoryWindowBufferMemory.runAdds N
          (us.take p ++ s :: us.drop p)).get_messages.head? = some s ∧
      s ∈ (InMemoryWindowBufferMemory.runAdds N
          (us.take p ++ s :: us.drop p)).get_messages) ∧
    s ∈ (PersistedWindowBufferMemory.runAdds N
        (us.take p ++ s :: us.drop p)).get_messages := by
  have hA : ∀ m ∈ us.take p, m.role ≠ Role.system :=
    fun m hm => hus m (List.take_subset p us hm)
  have hB : ∀ m ∈ us.drop p, m.role ≠ Role.system :=
    fun m hm => hus m (List.drop_subset p us hm)
  constructor
  · have h1 := InMemoryWindowBufferMemory.foldl_add_nonsystem (us.take p) N [] none
      hA (by simp)
    simp only [List.nil_append] at h1
    set A2 := (us.take p).drop ((us.take p).length - N) with hA2
    have hstep : InMemoryWindowBufferMemory.add_message ⟨N, A2, none⟩ s
        = ⟨N, A2, some s⟩ := by
      simp [InMemoryWindowBufferMemory.add_message, hs]
    have h2 := InMemoryWindowBufferMemory.foldl_add_nonsystem (us.drop p) N A2
      (some s) hB (by rw [hA2, List.length_drop]; omega)
    rw [InMemoryWindowBufferMemory.runAdds, List.foldl_append, List.foldl_cons,
      InMemoryWindowBufferMemory.init]
    rw [h1, hstep, h2]
    simp [InMemoryWindowBufferMemory.get_messages]
  · rw [PersistedWindowBufferMemory.runAdds, List.foldl_append, List.foldl_cons]
    simp only [PersistedWindowBufferMemory.get_messages]
    refine PersistedWindowBufferMemory.foldl_add_mem_system (us.drop p) _ s ?_ hs
    exact PersistedWindowBufferMemory.add_message_mem_system _ s s
      (List.mem_append_right _ (by simp)) hs

/-- C4, witness: the preservation property evaluated at `N = 1`, with the
system message interleaved first among six user messages. -/
theorem c4_witness :
    ((InMemoryWindowBufferMemory.runAdds 1
        (([⟨"u1", Role.user⟩, ⟨"u2", Role.user⟩, ⟨"u3", Role.user⟩,
           ⟨"u4", Role.user⟩, ⟨"u5", Role.user⟩, ⟨"u6", Role.user⟩].take 0)
          ++ (⟨"sys", Role.system⟩ : Message) ::
            ([⟨"u1", Role.user⟩, ⟨"u2", Role.user⟩, ⟨"u3", Role.user⟩,
              ⟨"u4", Role.user⟩, ⟨"u5", Role.user⟩,
              ⟨"u6", Role.user⟩].drop 0))).get_messages.head?
        = some ⟨"sys", Role.system⟩) ∧
      (⟨"sys", Role.system⟩ : Message) ∈ (PersistedWindowBufferMemory.runAdds 1
        (([⟨"u1", Role.user⟩, ⟨"u2", Role.user⟩, ⟨"u3", Role.user⟩,
           ⟨"u4", Role.user⟩, ⟨"u5", Role.user⟩, ⟨"u6", Role.user⟩].take 0)
          ++ (⟨"sys", Role.system⟩ : Message) ::
            ([⟨"u1", Role.user⟩, ⟨"u2", Role.user⟩, ⟨"u3", Role.user⟩,
              ⟨"u4", Role.user⟩, ⟨"u5", Role.user⟩,
              ⟨"u6", Role.user⟩].drop 0))).get_messages := by
  have h := c4_system_preservation 1 0
    [⟨"u1", Role.user⟩, ⟨"u2", Role.user⟩, ⟨"u3", Role.user⟩,
     ⟨"u4", Role.user⟩, ⟨"u5", Role.user⟩, ⟨"u6", Role.user⟩]
    ⟨"sys", Role.system⟩ (by decide) (by decide) (by decide) rfl
  exact ⟨h.1.1, h.2⟩

/-- A tool call whose parsed name is hashable (not a JSON array or
object) always dispatches without raising: the membership test succeeds
and every failure inside the `try` is converted to an error string. -/
theorem execute_tool_ok_of_hashable (ag : Agent) (tc : ParsedToolCall)
    (h : pyHashableName tc.name = true) :
    ∃ r, ag.execute_tool tc = Except.ok r := by
  simp only [Agent.execute_tool]
  rcases htc : tc.name with _ | v
  · exact ⟨_, rfl⟩
  · cases v with
    | jnull => exact ⟨_, rfl⟩
    | jbool b => exact ⟨_, rfl⟩
    | jnum lx => exact ⟨_, rfl⟩
    | jstr nm =>
      simp only [lookupToolName]
      cases hdg : pyDictGet ag.tools nm with
      | none => exact ⟨_, rfl⟩
      | some t =>
        cases hex : t.execute tc.parameters with
        | ok r => exact ⟨r, by simp [hex]⟩
        | error e =>
          refine ⟨"Error executing tool \x27" ++ pyStrOfName (some (Jval.jstr nm))
            ++ "\x27: " ++ e, ?_⟩
          simp [hex]
    | jarr es => simp [pyHashableName, htc] at h
    | jobj ents => simp [pyHashableName, htc] at h

/-- A tool call whose parsed name is unhashable (a JSON array or object)
makes the registry membership test raise `TypeError` before the `try`. -/
theorem execute_tool_error_of_unhashable (ag : Agent) (tc : ParsedToolCall)
    (h : pyHashableName tc.name = false) :
    ag.execute_tool tc = Except.error () := by
  simp only [Agent.execute_tool]
  rcases htc : tc.name with _ | v
  · simp [pyHashableName, htc] at h
  · cases v with
    | jnull => simp [pyHashableName, htc] at h
    | jbool b => simp [pyHashableName, htc] at h
    | jnum lx => simp [pyHashableName, htc] at h
    | jstr nm => simp [pyHashableName, htc] at h
    | jarr es => rfl
    | jobj ents => rfl

/-- C5, counterexample: a fenced block whose JSON `name` is an array
parses to a tool call, but the dict membership test on the unhashable name
raises `TypeError` before the `try`, so `process` propagates the exception
after a single generation call — it neither makes a second call nor
returns the second output, refuting the claim for such responses. -/
theorem c5_counterexample :
    parse_tool_call "```tool\n\x7b\"name\": [\"x\"]\x7d\n```"
      = some ⟨some (Jval.jarr [Jval.jstr "x"]), Jval.jobj []⟩ ∧
    ((Agent.ofTools [CalculatorTool]).process
        (fun n => if n = 0 then "```tool\n\x7b\"name\": [\"x\"]\x7d\n```"
          else "SECOND") "hi").chat_calls.length = 1 ∧
    ((Agent.ofTools [CalculatorTool]).process
        (fun n => if n = 0 then "```tool\n\x7b\"name\": [\"x\"]\x7d\n```"
          else "SECOND") "hi").output = Except.error () := by
  exact ⟨rfl, rfl, rfl⟩

/-- C5 (amended): whenever the first generated response parses as a tool
call whose `name` is hashable (not a JSON array or object — the unhashable
cases crash the dispatch before any tool runs), `process` makes exactly
two generation calls and exactly one tool execution and returns the second
generation output — for every oracle `gen`, in particular when `gen 1`
itself contains a tool-call-shaped block (the second response is never
parsed). -/
theorem c5_single_round_trip (ag : Agent) (gen : Nat → String)
    (user_message : String) (tc : ParsedToolCall)
    (h : parse_tool_call (gen 0) = some tc)
    (hname : pyHashableName tc.name = true) :
    (ag.process gen user_message).chat_calls.length = 2 ∧
    (ag.process gen user_message).tool_executions = [tc] ∧
    (ag.process gen user_message).output = Except.ok (gen 1) := by
  obtain ⟨r, hr⟩ := execute_tool_ok_of_hashable ag tc hname
  simp only [Agent.process, h, hr]
  simp

/-- C5, witness: a calculator tool call in the first response, with a
second response that itself contains a tool-call-shaped block and is
returned verbatim. -/
theorem c5_witness :
    parse_tool_call ((fun n => if n = 0 then
        "```tool\n\x7b\"name\": \"calculator\", \"parameters\": \x7b\"expression\": \"2+2\"\x7d\x7d\n```"
      else
        "```tool\n\x7b\"name\": \"calculator\", \"parameters\": \x7b\"expression\": \"3+3\"\x7d\x7d\n```") 0)
      = some ⟨some (Jval.jstr "calculator"),
          Jval.jobj [("expression", Jval.jstr "2+2")]⟩ ∧
    ((Agent.ofTools [CalculatorTool]).process (fun n => if n = 0 then
        "```tool\n\x7b\"name\": \"calculator\", \"parameters\": \x7b\"expression\": \"2+2\"\x7d\x7d\n```"
      else
        "```tool\n\x7b\"name\": \"calculator\", \"parameters\": \x7b\"expression\": \"3+3\"\x7d\x7d\n```")
      "what is 2+2").chat_calls.length = 2 ∧
    ((Agent.ofTools [CalculatorTool]).process (fun n => if n = 0 then
        "```tool\n\x7b\"name\": \"calculator\", \"parameters\": \x7b\"expression\": \"2+2\"\x7d\x7d\n```"
      else
        "```tool\n\x7b\"name\": \"calculator\", \"parameters\": \x7b\"expression\": \"3+3\"\x7d\x7d\n```")
      "what is 2+2").output
      = Except.ok "```tool\n\x7b\"name\": \"calculator\", \"parameters\": \x7b\"expression\": \"3+3\"\x7d\x7d\n```" := by
  have h := c5_single_round_trip (Agent.ofTools [CalculatorTool])
    (fun n => if n = 0 then
        "```tool\n\x7b\"name\": \"calculator\", \"parameters\": \x7b\"expression\": \"2+2\"\x7d\x7d\n```"
      else
        "```tool\n\x7b\"name\": \"calculator\", \"parameters\": \x7b\"expression\": \"3+3\"\x7d\x7d\n```")
    "what is 2+2"
    ⟨some (Jval.jstr "calculator"), Jval.jobj [("expression", Jval.jstr "2+2")]⟩
    rfl rfl
  exact ⟨rfl, h.1, h.2.2⟩

/-- C6: when the first generated response contains no parsed tool call,
`process` returns it verbatim (and raises nothing), makes exactly one
generation call and executes no tool. -/
theorem c6_no_tool_passthrough (ag : Agent) (gen : Nat → String)
    (user_message : String) (h : parse_tool_call (gen 0) = none) :
    (ag.process gen user_message).output = Except.ok (gen 0) ∧
    (ag.process gen user_message).chat_calls = [user_message] ∧
    (ag.process gen user_message).tool_executions = [] := by
  simp only [Agent.process, h]
  simp

/-- C6, witness: a plain-text response passes through unchanged with one
generation call and no tool execution. -/
theorem c6_witness :
    ((Agent.ofTools [CalculatorTool]).process
        (fun _ => "Paris is the capital of France.") "capital of France?").output
      = Except.ok "Paris is the capital of France." ∧
    ((Agent.ofTools [CalculatorTool]).process
        (fun _ => "Paris is the capital of France.") "capital of France?").chat_calls
      = ["capital of France?"] ∧
    ((Agent.ofTools [CalculatorTool]).process
        (fun _ => "Paris is the capital of France.") "capital of France?").tool_executions
      = [] := by
  exact c6_no_tool_passthrough (Agent.ofTools [CalculatorTool])
    (fun _ => "Paris is the capital of France.") "capital of France?" rfl

/-- C7, counterexample: `execute_tool` **can** raise: a reachable tool call
(parsed from a fenced block whose JSON `name` is an array) makes the
`tool_name not in self.tools` membership test — which runs before the
`try` — raise `TypeError: unhashable type`, refuting "never raises". -/
theorem c7_counterexample :
    parse_tool_call "```tool\n\x7b\"name\": []\x7d\n```"
      = some ⟨some (Jval.jarr []), Jval.jobj []⟩ ∧
    (Agent.ofTools [CalculatorTool]).execute_tool
        ⟨some (Jval.jarr []), Jval.jobj []⟩ = Except.error () := by
  exact ⟨rfl, rfl⟩

/-- C7 (amended): `execute_tool` raises `TypeError` exactly when the parsed
name is a JSON array or object (unhashable dict key, tested outside the
`try`); for every hashable name it never raises: dispatching `calculator`
on `expression = "2+2"` returns `"4"`, an unregistered name yields the
not-found error string containing that name, and a raising `execute` is
caught and converted to an error string containing the tool name. -/
theorem c7_tool_dispatch :
    ((Agent.ofTools [CalculatorTool]).execute_tool
        ⟨some (Jval.jstr "calculator"),
          Jval.jobj [("expression", Jval.jstr "2+2")]⟩ = Except.ok "4") ∧
    (∀ (ag : Agent) (tc : ParsedToolCall), pyHashableName tc.name = true →
      ∃ r, ag.execute_tool tc = Except.ok r) ∧
    (∀ (ag : Agent) (tc : ParsedToolCall), pyHashableName tc.name = false →
      ag.execute_tool tc = Except.error ()) ∧
    (∀ (ag : Agent) (nm : String) (params : Jval),
      pyDictGet ag.tools nm = none →
      ag.execute_tool ⟨some (Jval.jstr nm), params⟩
        = Except.ok ("Error: Tool \x27" ++ nm ++ "\x27 not found.")) ∧
    (∀ (ag : Agent) (nm : String) (t : ToolImpl) (params : Jval) (e : String),
      pyDictGet ag.tools nm = some t → t.execute params = Except.error e →
      ag.execute_tool ⟨some (Jval.jstr nm), params⟩
        = Except.ok ("Error executing tool \x27" ++ nm ++ "\x27: " ++ e)) := by
  refine ⟨rfl, execute_tool_ok_of_hashable, execute_tool_error_of_unhashable, ?_, ?_⟩
  · intro ag nm params h
    simp only [Agent.execute_tool, lookupToolName, h, pyStrOfName]
  · intro ag nm t params e h he
    simp only [Agent.execute_tool, lookupToolName, h, he, pyStrOfName]

/-- C7, witness: the hashable-name total path (absent name), the
unhashable crash, the unknown-name error string, and the caught-exception
conversion, all evaluated on the calculator agent. -/
theorem c7_witness :
    (∃ r, (Agent.ofTools [CalculatorTool]).execute_tool
        ⟨none, Jval.jobj []⟩ = Except.ok r) ∧
    (Agent.ofTools [CalculatorTool]).execute_tool
        ⟨some (Jval.jobj []), Jval.jobj []⟩ = Except.error () ∧
    (Agent.ofTools [CalculatorTool]).execute_tool
        ⟨some (Jval.jstr "nonexistent"), Jval.jobj []⟩
      = Except.ok ("Error: Tool \x27nonexistent\x27 not found.") ∧
    (Agent.ofTools [CalculatorTool]).execute_tool
        ⟨some (Jval.jstr "calculator"), Jval.jnull⟩
      = Except.ok ("Error executing tool \x27calculator\x27: TypeError: argument after a double star must be a mapping") := by
  exact ⟨c7_tool_dispatch.2.1 (Agent.ofTools [CalculatorTool])
      ⟨none, Jval.jobj []⟩ rfl,
    c7_tool_dispatch.2.2.1 (Agent.ofTools [CalculatorTool])
      ⟨some (Jval.jobj []), Jval.jobj []⟩ rfl,
    c7_tool_dispatch.2.2.2.1 (Agent.ofTools [CalculatorTool]) "nonexistent"
      (Jval.jobj []) rfl,
    c7_tool_dispatch.2.2.2.2 (Agent.ofTools [CalculatorTool]) "calculator"
      CalculatorTool Jval.jnull
      "TypeError: argument after a double star must be a mapping" rfl rfl⟩

/-- C8, counterexample: a fenced tool block whose body is a JSON object
without a `name` field is **not** treated as "no tool call":
`parse_tool_call` returns a truthy dict with `name = None` (hashable), so
`process` performs a tool dispatch (which fails with "not found") and
makes a second generation call, returning the second output instead of the
first text. -/
theorem c8_counterexample :
    ((Agent.ofTools [CalculatorTool]).process
        (fun n => if n = 0 then "```tool\n\x7b\"parameters\": \x7b\x7d\x7d\n```"
          else "SECOND") "hi").chat_calls.length = 2 ∧
    ((Agent.ofTools [CalculatorTool]).process
        (fun n => if n = 0 then "```tool\n\x7b\"parameters\": \x7b\x7d\x7d\n```"
          else "SECOND") "hi").output = Except.ok "SECOND" := by
  exact ⟨rfl, rfl⟩

/-- C8 (amended): a fenced block whose body is invalid JSON or a non-object
JSON value is treated as no tool call (first text returned unmodified, one
generation call, no error); but a JSON object lacking `name` is treated as
a call to the tool `None`: a second generation call is made and its output
returned. -/
theorem c8_malformed_block (ag : Agent) (gen : Nat → String)
    (user_message body : String) (hb : toolBlockBody (gen 0) = some body) :
    ((json_loads body = none ∨
        (∃ v, json_loads body = some v ∧ v.isObj = false)) →
      (ag.process gen user_message).output = Except.ok (gen 0) ∧
      (ag.process gen user_message).chat_calls = [user_message] ∧
      (ag.process gen user_message).tool_executions = []) ∧
    (∀ entries, json_loads body = some (Jval.jobj entries) →
      pyDictGet entries "name" = none →
      (ag.process gen user_message).chat_calls.length = 2 ∧
      (ag.process gen user_message).output = Except.ok (gen 1)) := by
  constructor
  · intro h
    have hp : parse_tool_call (gen 0) = none := by
      rcases h with h | ⟨v, hv, hvo⟩
      · simp only [parse_tool_call, hb, h]
      · simp only [parse_tool_call, hb, hv]
        cases v <;> simp_all [Jval.isObj]
    simp only [Agent.process, hp]
    simp
  · intro entries hjson hname
    have hp : parse_tool_call (gen 0)
        = some ⟨none, (pyDictGet entries "parameters").getD (Jval.jobj [])⟩ := by
      simp only [parse_tool_call, hb, hjson, hname]
    simp only [Agent.process, hp, Agent.execute_tool, lookupToolName]
    simp

/-- C8, witness: a non-JSON block body passes through with one generation
call; an object body lacking `name` triggers the second generation call. -/
theorem c8_witness :
    ((Agent.ofTools [CalculatorTool]).process
        (fun n => if n = 0 then "```tool\nnot json\n```" else "FINAL")
        "q").output = Except.ok ((fun n : Nat =>
          if n = 0 then "```tool\nnot json\n```" else "FINAL") 0) ∧
    ((Agent.ofTools [CalculatorTool]).process
        (fun n => if n = 0 then "```tool\nnot json\n```" else "FINAL")
        "q").chat_calls = ["q"] ∧
    ((Agent.ofTools [CalculatorTool]).process
        (fun n => if n = 0 then "```tool\n\x7b\"parameters\": \x7b\x7d\x7d\n```"
          else "FINAL2") "q2").chat_calls.length = 2 ∧
    ((Agent.ofTools [CalculatorTool]).process
        (fun n => if n = 0 then "```tool\n\x7b\"parameters\": \x7b\x7d\x7d\n```"
          else "FINAL2") "q2").output = Except.ok ((fun n : Nat =>
            if n = 0 then "```tool\n\x7b\"parameters\": \x7b\x7d\x7d\n```"
          else "FINAL2") 1) := by
  have h1 := (c8_malformed_block (Agent.ofTools [CalculatorTool])
    (fun n => if n = 0 then "```tool\nnot json\n```" else "FINAL") "q"
    "not json" rfl).1 (Or.inl rfl)
  have h2 := (c8_malformed_block (Agent.ofTools [CalculatorTool])
    (fun n => if n = 0 then "```tool\n\x7b\"parameters\": \x7b\x7d\x7d\n```"
      else "FINAL2") "q2"
    "\x7b\"parameters\": \x7b\x7d\x7d" rfl).2
    [("parameters", Jval.jobj [])] rfl rfl
  exact ⟨h1.1, h1.2.1, h2.1, h2.2⟩

/-- C9: a successful backend response with missing or empty assistant
content (falsy response, empty choices, missing message, `None` content or
empty-string content) makes `chat` append an empty assistant message after
the user message and return the empty string without raising. -/
theorem c9_missing_content (mem : InMemoryWindowBufferMemory)
    (user_message : String) (resp : ApiResponse)
    (h : LlmClient.missingOrEmptyContent resp) :
    LlmClient.chat mem user_message (Except.ok resp)
      = (Except.ok "", (mem.add_message ⟨user_message, Role.user⟩).add_message
          ⟨"", Role.assistant⟩) := by
  match resp with
  | none => rfl
  | some [] => rfl
  | some (none :: _) => rfl
  | some (some none :: _) => rfl
  | some (some (some c) :: _) =>
    have hc : c = "" := h
    subst hc
    rfl

/-- C9, witness: the empty-content policy evaluated on a falsy response
with a fresh window-3 memory. -/
theorem c9_witness :
    LlmClient.chat (InMemoryWindowBufferMemory.init 3) "hello" (Except.ok none)
      = (Except.ok "", ((InMemoryWindowBufferMemory.init 3).add_message
          ⟨"hello", Role.user⟩).add_message ⟨"", Role.assistant⟩) :=
  c9_missing_content (InMemoryWindowBufferMemory.init 3) "hello" none trivial

theorem appendToolEntries_ok (l : List (String × ToolImpl)) :
    ∀ acc, (∀ kv ∈ l, kv.2.parameters = ([] : List (String × ToolParameter))) →
      ∃ s, appendToolEntries l acc = Except.ok s := by
  induction l with
  | nil => intro acc _; exact ⟨acc, rfl⟩
  | cons kv rest ih =>
    intro acc h
    obtain ⟨k, t⟩ := kv
    have ht : t.parameters = [] := h (k, t) (by simp)
    simp only [appendToolEntries, toolEntryText, ht]
    exact ih _ (fun kv2 h2 => h kv2 (by simp [h2]))

theorem appendToolEntries_error (l : List (String × ToolImpl)) :
    ∀ acc, (∃ kv ∈ l, kv.2.parameters ≠ ([] : List (String × ToolParameter))) →
      appendToolEntries l acc = Except.error () := by
  induction l with
  | nil =>
    intro acc h
    simp at h
  | cons kv0 rest ih =>
    intro acc h
    obtain ⟨k, t⟩ := kv0
    obtain ⟨kv, hmem, hne⟩ := h
    rcases List.mem_cons.mp hmem with heq | hrest
    · subst heq
      simp only at hne
      match ht : t.parameters with
      | [] => exact absurd ht hne
      | p :: ps =>
        simp only [appendToolEntries, toolEntryText, ht]
    · match ht : t.parameters with
      | [] =>
        simp only [appendToolEntries, toolEntryText, ht]
        exact ih _ ⟨kv, hrest, hne⟩
      | p :: ps =>
        simp only [appendToolEntries, toolEntryText, ht]

/-- C10, counterexample: `Agent` construction **fails** on the built-in tool
list: `_create_system_prompt` subscripts `param_details["description"]` on
a `ToolParameter` dataclass instance, which has no `__getitem__`, so
`Agent.__init__` with `[CalculatorTool]` raises
`TypeError: not subscriptable`. -/
theorem c10_counterexample :
    Agent.init [CalculatorTool] = Except.error () := by
  rfl

/-- C10 (amended): the registry (built before the prompt) maps each name to
the last supplied tool bearing it (`lastNamed`), its keys are exactly the
distinct supplied names, and its size is the number of distinct names (one
would-be prompt entry per distinct name).  But construction only succeeds
when every registered tool has an empty parameters dict; as soon as one
registered tool has parameters, the prompt renderer's subscript on a
`ToolParameter` raises `TypeError` out of the constructor. -/
theorem c10_registry_last_wins (ts : List ToolImpl) (nm : String) :
    pyDictGet (Agent.ofTools ts).tools nm = lastNamed nm ts ∧
    ((Agent.ofTools ts).tools.map Prod.fst).Nodup ∧
    (nm ∈ (Agent.ofTools ts).tools.map Prod.fst ↔ nm ∈ ts.map ToolImpl.name) ∧
    (Agent.ofTools ts).tools.length = (ts.map ToolImpl.name).dedup.length ∧
    ((∀ kv ∈ (Agent.ofTools ts).tools,
        kv.2.parameters = ([] : List (String × ToolParameter))) →
      Agent.init ts = Except.ok (Agent.ofTools ts)) ∧
    ((∃ kv ∈ (Agent.ofTools ts).tools, kv.2.parameters ≠ []) →
      Agent.init ts = Except.error ()) := by
  refine ⟨buildRegistry_get ts nm, buildRegistry_keys_nodup ts,
    buildRegistry_keys_mem ts nm, ?_, ?_, ?_⟩
  · simp only [Agent.ofTools]
    exact buildRegistry_length ts
  · intro h
    obtain ⟨s, hs⟩ := appendToolEntries_ok (buildRegistry ts)
      BASE_AGENT_SYSTEM_PROMPT h
    simp only [Agent.init, create_system_prompt, hs]
    by_cases hlen : (buildRegistry ts).length = 0
    · simp [hlen]
    · simp [hlen]
  · intro h
    have hs := appendToolEntries_error (buildRegistry ts)
      BASE_AGENT_SYSTEM_PROMPT h
    simp only [Agent.init, create_system_prompt, hs]

/-- C10, witness: construction succeeds on the empty tool list (prompt gets
the "no tools" note) and fails on `[CalculatorTool]`, whose parameters
dict is non-empty. -/
theorem c10_witness :
    Agent.init ([] : List ToolImpl) = Except.ok (Agent.ofTools []) ∧
    Agent.init [CalculatorTool] = Except.error () := by
  refine ⟨(c10_registry_last_wins [] "x").2.2.2.2.1 (by simp [Agent.ofTools,
    buildRegistry]), ?_⟩
  refine (c10_registry_last_wins [CalculatorTool] "x").2.2.2.2.2 ?_
  refine ⟨("calculator", CalculatorTool), ?_, ?_⟩
  · show ("calculator", CalculatorTool) ∈ (Agent.ofTools [CalculatorTool]).tools
    simp [Agent.ofTools, buildRegistry, pyDictInsert, CalculatorTool]
  · simp [CalculatorTool]

end Mowzio
